import Mathlib

/-!
A shallow embedding of the `form_validator` Go package (`validator.go`) and
proofs of properties of its validation pipeline.

Modelling conventions:
* Go strings are Lean `String`s; `String.length` counts Unicode code points,
  matching `utf8.RuneCountInString`, and `String.utf8ByteSize` the byte length.
* Go maps (`Errors`, `values`, `files`) are association lists with
  insert-replaces-existing semantics (`insertKV` / `lookupKV`); a map read of
  an absent key yields the zero value (`""` for strings, `none` for the file
  pointer), as in Go.
* `*multipart.FileHeader` is modelled by `FileHeader`; a nil pointer is
  `Option.none`.  The I/O behaviour of `file.Open()` and the first `Read` of
  512 bytes, and the `http.DetectContentType` sniffer (both external to this
  repository), are abstracted as oracle fields of `FileHeader`: `openOk`
  (`Open` returns no error), `readOk` (the read returns no error other than
  `io.EOF`) and `sniffedType` (the sniffed MIME type of the 512-byte buffer).
* `strings.ToLower` / `unicode.IsSpace` are modelled on the ASCII range the
  package actually compares (extension lists, format names, boolean tokens);
  the full Unicode tables of the Go standard library are elided.
* Machine integers (`int64`, `int`) are modelled as `Int`, with the exact
  64-bit range check of `strconv.ParseInt` made explicit.
-/

namespace FormValidator

/-! ### Go standard-library string helpers -/

/-- `strings.ToLower`, character by character; `Char.toLower` is exactly
the mapping on the basic latin letters `A`–`Z`. -/
def goToLower (s : String) : String := ⟨s.data.map Char.toLower⟩

/-- `unicode.IsSpace` on the Latin-1 range: space, tab, newline, vertical tab,
form feed, carriage return, next line, no-break space. -/
def goIsSpace (c : Char) : Bool :=
  c = ' ' || c = '\t' || c = '\n' || c.toNat = 11 || c.toNat = 12 ||
  c = '\r' || c.toNat = 133 || c.toNat = 160

/-- `strings.TrimSpace`: drop leading and trailing white space. -/
def goTrimSpace (s : String) : String :=
  ⟨((s.data.dropWhile goIsSpace).reverse.dropWhile goIsSpace).reverse⟩

/-- `strings.Join(l, ", ")`, as used for the `Allowed:` lists. -/
def joinComma (l : List String) : String := String.intercalate ", " l

/-- Scan of `filepath.Ext`, over the reversed character list of the path:
walk back from the end, stop at a path separator, and on the first dot
return the dot with the accumulated suffix. -/
def extSearch : List Char → List Char → List Char
  | [], _ => []
  | c :: rest, acc =>
    if c = '/' then []
    else if c = '.' then '.' :: acc
    else extSearch rest (c :: acc)

/-- `filepath.Ext`: the suffix of the final path element beginning at its
final dot, or `""` when there is no dot. -/
def filepathExt (s : String) : String := ⟨extSearch s.data.reverse []⟩

/-- Numeric value of a list of decimal digit characters. -/
def digitsToNat (cs : List Char) : Nat :=
  cs.foldl (fun acc c => acc * 10 + (c.toNat - 48)) 0

/-- `strconv.ParseInt(s, 10, 64)`: optional sign, one or more decimal
digits, value within the `int64` range; `none` models a non-nil error
(syntax error or range overflow). -/
def parseInt64 (s : String) : Option Int :=
  match s.data with
  | [] => none
  | c :: cs =>
    let signDigits : Bool × List Char :=
      if c = '-' then (true, cs)
      else if c = '+' then (false, cs)
      else (false, c :: cs)
    if signDigits.2.isEmpty then none
    else if signDigits.2.all Char.isDigit then
      let n : Nat := digitsToNat signDigits.2
      if signDigits.1 then
        if n ≤ 2 ^ 63 then some (-(n : Int)) else none
      else
        if n ≤ 2 ^ 63 - 1 then some (n : Int) else none
    else none

/-- `strconv.ParseBool`: the twelve accepted tokens, and `none` for a
non-nil error on anything else. -/
def parseBool (s : String) : Option Bool :=
  if s ∈ ["1", "t", "T", "TRUE", "true", "True"] then some true
  else if s ∈ ["0", "f", "F", "FALSE", "false", "False"] then some false
  else none

/-- `utf8.RuneCountInString`: the number of Unicode code points. -/
def RuneCountInString (s : String) : Nat := s.length

/-! ### Data model (`validator.go`) -/

/-- `FileValidationConfig`: maximum size in bytes, allowed MIME types,
allowed file extensions. -/
structure FileValidationConfig where
  MaxSize : Int
  AllowedTypes : List String
  AllowedExts : List String
deriving DecidableEq

/-- Model of `*multipart.FileHeader` together with the I/O oracle for its
content (see the module docstring). -/
structure FileHeader where
  Filename : String
  Size : Int
  openOk : Bool
  readOk : Bool
  sniffedType : String
deriving DecidableEq

/-- MIME type constant `MimeJPEG`. -/
def MimeJPEG : String := "image/jpeg"

/-- MIME type constant `MimePNG`. -/
def MimePNG : String := "image/png"

/-- MIME type constant `MimeGIF`. -/
def MimeGIF : String := "image/gif"

/-- MIME type constant `MimeWEBP`. -/
def MimeWEBP : String := "image/webp"

/-- `DefaultImageFormats`. -/
def DefaultImageFormats : List String := ["jpg", "jpeg", "png", "gif", "webp"]

/-- `KB`. -/
def KB : Int := 1024

/-- `MB`. -/
def MB : Int := 1024 * KB

/-- `Validator`: the error sink and the two value stores. -/
structure Validator where
  Errors : List (String × String)
  values : List (String × String)
  files : List (String × FileHeader)
deriving DecidableEq

/-- `ValidationFunc`: `(field, value) → (ok, message)`. -/
def ValidationFunc : Type := String → String → Bool × String

/-! ### Go map operations on the association-list model -/

/-- Map write `m[k] = b`: replace the entry for `k` when present, append
otherwise. -/
def insertKV {β : Type} : List (String × β) → String → β → List (String × β)
  | [], k, b => [(k, b)]
  | (k', b') :: rest, k, b =>
    if k' = k then (k, b) :: rest else (k', b') :: insertKV rest k b

/-- Map read `m[k]` as an `Option` (the caller supplies the zero value). -/
def lookupKV {β : Type} : List (String × β) → String → Option β
  | [], _ => none
  | (k', b') :: rest, k => if k' = k then some b' else lookupKV rest k

/-! ### Validator operations -/

/-- `New()`: empty errors, values and files. -/
def New : Validator := ⟨[], [], []⟩

/-- `SetValue`. -/
def Validator.SetValue (v : Validator) (field value : String) : Validator :=
  ⟨v.Errors, insertKV v.values field value, v.files⟩

/-- `GetValue`: a Go map read, `""` when the field is absent. -/
def Validator.GetValue (v : Validator) (field : String) : String :=
  (lookupKV v.values field).getD ""

/-- `SetFile`. -/
def Validator.SetFile (v : Validator) (field : String) (file : FileHeader) : Validator :=
  ⟨v.Errors, v.values, insertKV v.files field file⟩

/-- `GetFile`: a Go map read, `none` (nil) when the field is absent. -/
def Validator.GetFile (v : Validator) (field : String) : Option FileHeader :=
  lookupKV v.files field

/-- The assignment `v.Errors[field] = message`. -/
def Validator.setError (v : Validator) (field message : String) : Validator :=
  ⟨insertKV v.Errors field message, v.values, v.files⟩

/-- The validation loop shared by `String` and `Int`: run the functions in
order and record the first failure's message, skipping the rest. -/
def runValidations (v : Validator) (field value : String) :
    List ValidationFunc → Validator
  | [] => v
  | f :: fs =>
    match f field value with
    | (true, _) => runValidations v field value fs
    | (false, message) => v.setError field message

/-- `Int(field, validations...)`: run the validations, then always attempt
the base-10 64-bit parse; a parse failure records its message (overwriting)
and returns 0. -/
def Validator.Int (v : Validator) (field : String)
    (validations : List ValidationFunc) : Int × Validator :=
  let value := v.GetValue field
  let v1 := runValidations v field value validations
  match parseInt64 value with
  | none => (0, v1.setError field "This field must be a valid integer")
  | some intValue => (intValue, v1)

/-- `Check(ok, field, message)`. -/
def Validator.Check (v : Validator) (ok : Bool) (field message : String) : Validator :=
  if ok then v else v.setError field message

/-- `Valid()`: true iff the error map is empty. -/
def Validator.Valid (v : Validator) : Bool := v.Errors.isEmpty

/-! ### Image (`validator.go` lines 112–175), split at its early returns -/

/-- The condition of the size check of `Image`: `MaxSize` is positive and
the file size strictly exceeds it. -/
abbrev sizeFails (config : FileValidationConfig) (file : FileHeader) : Prop :=
  config.MaxSize > 0 ∧ file.Size > config.MaxSize

/-- The condition of the extension check of `Image`: `AllowedExts` is
non-empty and no entry, lower-cased, equals the lower-cased extension of
the filename. -/
abbrev extFails (config : FileValidationConfig) (file : FileHeader) : Prop :=
  config.AllowedExts ≠ [] ∧
    ¬∃ e ∈ config.AllowedExts, goToLower e = goToLower (filepathExt file.Filename)

/-- The condition of the sniffed-MIME-type check of `Image`: `AllowedTypes`
is non-empty and no entry is a prefix of the sniffed type
(`strings.HasPrefix`). -/
abbrev sniffFails (config : FileValidationConfig) (file : FileHeader) : Prop :=
  config.AllowedTypes ≠ [] ∧
    ¬∃ t ∈ config.AllowedTypes, t.data.isPrefixOf file.sniffedType.data = true

/-- The MIME stage of `Image`: open the file, read the first 512 bytes, and
when `AllowedTypes` is non-empty compare the sniffed type by prefix.  Note
the open and the read are not guarded by `AllowedTypes`. -/
def imageMimeCheck (v : Validator) (field : String) (config : FileValidationConfig)
    (file : FileHeader) : Option FileHeader × Validator :=
  if file.openOk = false then (none, v.setError field "Could not process file")
  else if file.readOk = false then (none, v.setError field "Could not read file content")
  else if sniffFails config file then
    (none, v.setError field ("Invalid file type. Allowed: " ++ joinComma config.AllowedTypes))
  else (some file, v)

/-- The extension stage of `Image`: when `AllowedExts` is non-empty the
lower-cased extension of the filename must match one entry
(case-insensitively); then the MIME stage runs. -/
def imageExtCheck (v : Validator) (field : String) (config : FileValidationConfig)
    (file : FileHeader) : Option FileHeader × Validator :=
  if extFails config file then
    (none, v.setError field ("Invalid file extension. Allowed: " ++ joinComma config.AllowedExts))
  else imageMimeCheck v field config file

/-- The size stage of `Image`: a positive `MaxSize` strictly below the file
size fails; then the extension stage runs. -/
def imageSizeCheck (v : Validator) (field : String) (config : FileValidationConfig)
    (file : FileHeader) : Option FileHeader × Validator :=
  if sizeFails config file then
    (none, v.setError field
      ("File size exceeds maximum limit of " ++ toString config.MaxSize ++ " bytes"))
  else imageExtCheck v field config file

/-- `Image(field, config)`: look up the file handle, then run the size,
extension and MIME stages; `none` models the nil return. -/
def Validator.Image (v : Validator) (field : String) (config : FileValidationConfig) :
    Option FileHeader × Validator :=
  match v.GetFile field with
  | none => (none, v.setError field "No file was uploaded")
  | some file => imageSizeCheck v field config file

/-- Reducible alias for the string type, needed in the signature of
`Validator.String`, whose own name shadows `String` there. -/
abbrev GoString : Type := String

/-- `String(field, validations...)`: returns the raw stored value and the
updated validator. -/
def Validator.String (v : Validator) (field : GoString)
    (validations : List ValidationFunc) : GoString × Validator :=
  let value := v.GetValue field
  (value, runValidations v field value validations)

/-! ### ImageConfig (`validator.go` lines 79–109) -/

/-- The loop body of `ImageConfig`: the `switch strings.ToLower(format)`
appending MIME types and extensions. -/
def imageConfigLoop : List String → List String × List String → List String × List String
  | [], acc => acc
  | format :: rest, (mimeTypes, extensions) =>
    if goToLower format = "jpg" ∨ goToLower format = "jpeg" then
      imageConfigLoop rest (mimeTypes ++ [MimeJPEG], extensions ++ [".jpg", ".jpeg"])
    else if goToLower format = "png" then
      imageConfigLoop rest (mimeTypes ++ [MimePNG], extensions ++ [".png"])
    else if goToLower format = "gif" then
      imageConfigLoop rest (mimeTypes ++ [MimeGIF], extensions ++ [".gif"])
    else if goToLower format = "webp" then
      imageConfigLoop rest (mimeTypes ++ [MimeWEBP], extensions ++ [".webp"])
    else imageConfigLoop rest (mimeTypes, extensions)

/-- `ImageConfig(maxSize, formats...)`: default the formats when none are
given, then expand them. -/
def ImageConfig (maxSize : Int) (formats : List String) : FileValidationConfig :=
  let formats' := if formats.isEmpty then DefaultImageFormats else formats
  let expanded := imageConfigLoop formats' ([], [])
  ⟨maxSize, expanded.1, expanded.2⟩

/-! ### Predefined validation functions used by the claims -/

/-- `Required`. -/
def Required : ValidationFunc := fun _field value =>
  if goTrimSpace value = "" then (false, "This field is required") else (true, "")

/-- `MinLength(min)`: compares the Unicode code-point count with `min`. -/
def MinLength (min : Int) : ValidationFunc := fun _field value =>
  if (RuneCountInString value : Int) < min then
    (false, "This field must be at least " ++ toString min ++ " characters long")
  else (true, "")

/-- `MaxLength(max)`. -/
def MaxLength (max : Int) : ValidationFunc := fun _field value =>
  if (RuneCountInString value : Int) > max then
    (false, "This field must not exceed " ++ toString max ++ " characters")
  else (true, "")

/-- `Boolean`: lower-case, trim, then `strconv.ParseBool`. -/
def Boolean : ValidationFunc := fun _field value =>
  match parseBool (goTrimSpace (goToLower value)) with
  | none => (false, "This field must be true or false")
  | some _ => (true, "")

/-- `InStringSlice(slice)`. -/
def InStringSlice (slice : List String) : ValidationFunc := fun _field value =>
  if value ∈ slice then (true, "") else (false, "This value is not in the allowed list")

/-- `Custom(check, message)`. -/
def Custom (check : String → Bool) (message : String) : ValidationFunc :=
  fun _field value => if check value then (true, "") else (false, message)

/-! ### The per-format expansion table of `ImageConfig`, format by format -/

/-- The MIME types one format name contributes in the `ImageConfig` switch:
one fixed type for a recognized name (case-insensitively), nothing for an
unrecognized name. -/
def formatMimes (format : String) : List String :=
  if goToLower format = "jpg" ∨ goToLower format = "jpeg" then [MimeJPEG]
  else if goToLower format = "png" then [MimePNG]
  else if goToLower format = "gif" then [MimeGIF]
  else if goToLower format = "webp" then [MimeWEBP]
  else []

/-- The extensions one format name contributes in the `ImageConfig` switch. -/
def formatExtsOf (format : String) : List String :=
  if goToLower format = "jpg" ∨ goToLower format = "jpeg" then [".jpg", ".jpeg"]
  else if goToLower format = "png" then [".png"]
  else if goToLower format = "gif" then [".gif"]
  else if goToLower format = "webp" then [".webp"]
  else []

/-! ### Lemmas on the association-list map model -/

theorem lookupKV_insert_self {β : Type} (m : List (String × β)) (k : String) (b : β) :
    lookupKV (insertKV m k b) k = some b := by
  induction m with
  | nil => simp [insertKV, lookupKV]
  | cons hd tl ih =>
    obtain ⟨k', b'⟩ := hd
    by_cases h : k' = k <;> simp [insertKV, lookupKV, h, ih]

theorem lookupKV_insert_isSome {β : Type} (m : List (String × β)) (k f : String) (b : β)
    (h : (lookupKV m f).isSome = true) : (lookupKV (insertKV m k b) f).isSome = true := by
  induction m with
  | nil => simp [lookupKV] at h
  | cons hd tl ih =>
    obtain ⟨k', b'⟩ := hd
    by_cases hk : k' = k
    · subst hk
      by_cases hf : k' = f <;> simp_all [insertKV, lookupKV]
    · by_cases hf : k' = f <;> simp_all [insertKV, lookupKV]

theorem insertKV_ne_nil {β : Type} (m : List (String × β)) (k : String) (b : β) :
    insertKV m k b ≠ [] := by
  cases m with
  | nil => simp [insertKV]
  | cons hd tl =>
    obtain ⟨k', b'⟩ := hd
    by_cases h : k' = k <;> simp [insertKV, h]

/-- `m'` keeps every field that has a recorded error in `m`. -/
def keepsErrors (m m' : List (String × String)) : Prop :=
  ∀ f, (lookupKV m f).isSome = true → (lookupKV m' f).isSome = true

theorem keepsErrors_refl (m : List (String × String)) : keepsErrors m m :=
  fun _ h => h

theorem keepsErrors_insert (m : List (String × String)) (k b : String) :
    keepsErrors m (insertKV m k b) :=
  fun f h => lookupKV_insert_isSome m k f b h

theorem keepsErrors_trans {a b c : List (String × String)}
    (h1 : keepsErrors a b) (h2 : keepsErrors b c) : keepsErrors a c :=
  fun f h => h2 f (h1 f h)

theorem keepsErrors_ne_nil {m m' : List (String × String)}
    (h : keepsErrors m m') (hm : m ≠ []) : m' ≠ [] := by
  cases m with
  | nil => exact absurd rfl hm
  | cons hd tl =>
    obtain ⟨k, b⟩ := hd
    have hk : (lookupKV ((k, b) :: tl) k).isSome = true := by simp [lookupKV]
    have hk' := h k hk
    intro hnil
    rw [hnil] at hk'
    simp [lookupKV] at hk'

/-! ### Lemmas on the validation loop -/

theorem runValidations_nil (v : Validator) (field value : String) :
    runValidations v field value [] = v := rfl

theorem runValidations_cons_pass (v : Validator) (field value : String)
    (f : ValidationFunc) (fs : List ValidationFunc)
    (h : (f field value).1 = true) :
    runValidations v field value (f :: fs) = runValidations v field value fs := by
  rcases hfv : f field value with ⟨ok, msg⟩
  rw [hfv] at h
  simp only at h
  subst h
  simp [runValidations, hfv]

theorem runValidations_cons_fail (v : Validator) (field value : String)
    (f : ValidationFunc) (fs : List ValidationFunc) (msg : String)
    (h : f field value = (false, msg)) :
    runValidations v field value (f :: fs) = v.setError field msg := by
  simp [runValidations, h]

theorem runValidations_all_pass (v : Validator) (field value : String)
    (l : List ValidationFunc) (h : ∀ g ∈ l, (g field value).1 = true) :
    runValidations v field value l = v := by
  induction l with
  | nil => rfl
  | cons f fs ih =>
    rw [runValidations_cons_pass v field value f fs (h f (by simp))]
    exact ih fun g hg => h g (by simp [hg])

theorem runValidations_append_pass (v : Validator) (field value : String)
    (pre rest : List ValidationFunc) (h : ∀ g ∈ pre, (g field value).1 = true) :
    runValidations v field value (pre ++ rest) = runValidations v field value rest := by
  induction pre with
  | nil => rfl
  | cons f fs ih =>
    rw [List.cons_append, runValidations_cons_pass v field value f (fs ++ rest) (h f (by simp))]
    exact ih fun g hg => h g (by simp [hg])

theorem runValidations_keeps (v : Validator) (field value : String)
    (l : List ValidationFunc) :
    keepsErrors v.Errors (runValidations v field value l).Errors := by
  induction l with
  | nil => exact keepsErrors_refl _
  | cons f fs ih =>
    rcases hfv : f field value with ⟨ok, msg⟩
    cases ok
    · rw [runValidations_cons_fail v field value f fs msg hfv]
      exact keepsErrors_insert _ _ _
    · rw [runValidations_cons_pass v field value f fs (by rw [hfv])]
      exact ih

/-! ### Error preservation of every public operation -/

theorem imageMimeCheck_keeps (v : Validator) (field : String)
    (config : FileValidationConfig) (file : FileHeader) :
    keepsErrors v.Errors ((imageMimeCheck v field config file).2).Errors := by
  unfold imageMimeCheck
  split_ifs <;>
    first
      | exact keepsErrors_insert _ _ _
      | exact keepsErrors_refl _

theorem imageExtCheck_keeps (v : Validator) (field : String)
    (config : FileValidationConfig) (file : FileHeader) :
    keepsErrors v.Errors ((imageExtCheck v field config file).2).Errors := by
  unfold imageExtCheck
  split_ifs
  · exact keepsErrors_insert _ _ _
  · exact imageMimeCheck_keeps v field config file

theorem imageSizeCheck_keeps (v : Validator) (field : String)
    (config : FileValidationConfig) (file : FileHeader) :
    keepsErrors v.Errors ((imageSizeCheck v field config file).2).Errors := by
  unfold imageSizeCheck
  split_ifs
  · exact keepsErrors_insert _ _ _
  · exact imageExtCheck_keeps v field config file

theorem Image_keeps (v : Validator) (field : String) (config : FileValidationConfig) :
    keepsErrors v.Errors ((v.Image field config).2).Errors := by
  unfold Validator.Image
  cases hf : v.GetFile field with
  | none => exact keepsErrors_insert _ _ _
  | some file => exact imageSizeCheck_keeps v field config file

theorem Int_keeps (v : Validator) (field : String) (vals : List ValidationFunc) :
    keepsErrors v.Errors ((v.Int field vals).2).Errors := by
  unfold Validator.Int
  cases hp : parseInt64 (v.GetValue field) with
  | none =>
    simp only [hp]
    exact keepsErrors_trans (runValidations_keeps v field (v.GetValue field) vals)
      (keepsErrors_insert _ _ _)
  | some n =>
    simp only [hp]
    exact runValidations_keeps v field (v.GetValue field) vals

theorem String_keeps (v : Validator) (field : String) (vals : List ValidationFunc) :
    keepsErrors v.Errors ((v.String field vals).2).Errors :=
  runValidations_keeps v field (v.GetValue field) vals

theorem Check_keeps (v : Validator) (ok : Bool) (field message : String) :
    keepsErrors v.Errors (v.Check ok field message).Errors := by
  unfold Validator.Check
  cases ok
  · exact keepsErrors_insert _ _ _
  · exact keepsErrors_refl _

/-! ### The `ImageConfig` loop, format by format -/

theorem imageConfigLoop_eq (l ms es : List String) :
    imageConfigLoop l (ms, es) =
      (ms ++ l.flatMap formatMimes, es ++ l.flatMap formatExtsOf) := by
  induction l generalizing ms es with
  | nil => simp [imageConfigLoop]
  | cons hd tl ih =>
    simp only [imageConfigLoop]
    split_ifs <;>
      simp_all [formatMimes, formatExtsOf, List.flatMap_cons, List.append_assoc]

/-! ### Claims -/

/-- C2: in `Int(field, validations...)` the base-10 64-bit parse of the
stored value always runs after the validations; if the parse fails, the
field's error is set to "This field must be a valid integer" — overwriting
any message a failing validation recorded in the same call — and 0 is
returned; if the parse succeeds, the parsed integer is returned and the
validations' outcome is left in place. -/
theorem C2_int_parse_runs_last (v : Validator) (field : String)
    (vals : List ValidationFunc) :
    (parseInt64 (v.GetValue field) = none →
      (v.Int field vals).1 = 0 ∧
      (v.Int field vals).2 =
        (runValidations v field (v.GetValue field) vals).setError field
          "This field must be a valid integer" ∧
      lookupKV ((v.Int field vals).2).Errors field =
        some "This field must be a valid integer") ∧
    (∀ n, parseInt64 (v.GetValue field) = some n →
      (v.Int field vals).1 = n ∧
      (v.Int field vals).2 = runValidations v field (v.GetValue field) vals) := by
  constructor
  · intro hp
    have key : v.Int field vals =
        (0, (runValidations v field (v.GetValue field) vals).setError field
          "This field must be a valid integer") := by
      unfold Validator.Int
      simp only [hp]
    rw [key]
    exact ⟨rfl, rfl, lookupKV_insert_self _ _ _⟩
  · intro n hp
    have key : v.Int field vals = (n, runValidations v field (v.GetValue field) vals) := by
      unfold Validator.Int
      simp only [hp]
    rw [key]
    exact ⟨rfl, rfl⟩

/-- C2 witness: on stored value "abc" with a failing `MinLength 5`, the
parse failure's message overwrites the validation's and 0 is returned. -/
theorem C2_witness :
    ((New.SetValue "age" "abc").Int "age" [MinLength 5]).1 = 0 ∧
    lookupKV (((New.SetValue "age" "abc").Int "age" [MinLength 5]).2).Errors "age" =
      some "This field must be a valid integer" := by
  have h := (C2_int_parse_runs_last (New.SetValue "age" "abc") "age" [MinLength 5]).1 (by decide)
  exact ⟨h.1, h.2.2⟩

/-- C4: `String(field, validations...)` applies the validation functions in
order against the stored value, records the first failure's message under
the field (independently of the functions after it), and returns the raw
stored string whether or not any validation failed. -/
theorem C4_string_first_failure (v : Validator) (field : String)
    (vals : List ValidationFunc) :
    (v.String field vals).1 = v.GetValue field ∧
    ((∀ g ∈ vals, (g field (v.GetValue field)).1 = true) →
      (v.String field vals).2 = v) ∧
    (∀ pre f post msg, vals = pre ++ f :: post →
      (∀ g ∈ pre, (g field (v.GetValue field)).1 = true) →
      f field (v.GetValue field) = (false, msg) →
      (v.String field vals).2 = v.setError field msg) := by
  refine ⟨rfl, ?_, ?_⟩
  · intro h
    exact runValidations_all_pass v field (v.GetValue field) vals h
  · intro pre f post msg hv hpre hf
    subst hv
    show runValidations v field (v.GetValue field) (pre ++ f :: post) = _
    rw [runValidations_append_pass v field (v.GetValue field) pre (f :: post) hpre,
      runValidations_cons_fail v field (v.GetValue field) f post msg hf]

/-- C4 witness: on stored value "jo", `MinLength 3` fails first and its
message is recorded under the field, the `MaxLength 10` after it changing
nothing. -/
theorem C4_witness :
    ((New.SetValue "u" "jo").String "u" [MinLength 3, MaxLength 10]).2 =
      (New.SetValue "u" "jo").setError "u"
        "This field must be at least 3 characters long" ∧
    ((New.SetValue "u" "jo").String "u" [MinLength 3, MaxLength 10]).1 = "jo" := by
  constructor
  · exact (C4_string_first_failure (New.SetValue "u" "jo") "u" _).2.2
      [] (MinLength 3) [MaxLength 10] _ rfl (by simp) (by decide)
  · exact ((C4_string_first_failure (New.SetValue "u" "jo") "u" _).1).trans (by decide)

/-- C5: the size check of `Image` fails exactly when `MaxSize > 0` and the
file size strictly exceeds it, recording the size message; a size equal to
`MaxSize` passes, and a `MaxSize ≤ 0` disables the check, the run
continuing with the extension stage unchanged. -/
theorem C5_size_check (v : Validator) (field : String)
    (config : FileValidationConfig) (file : FileHeader)
    (h : v.GetFile field = some file) :
    (sizeFails config file →
      v.Image field config = (none, v.setError field
        ("File size exceeds maximum limit of " ++ toString config.MaxSize ++ " bytes"))) ∧
    (¬sizeFails config file →
      v.Image field config = imageExtCheck v field config file) ∧
    (config.MaxSize ≤ 0 → v.Image field config = imageExtCheck v field config file) ∧
    (file.Size = config.MaxSize →
      v.Image field config = imageExtCheck v field config file) := by
  have base : v.Image field config = imageSizeCheck v field config file := by
    unfold Validator.Image
    rw [h]
  refine ⟨?_, ?_, ?_, ?_⟩
  · intro hs
    rw [base]
    unfold imageSizeCheck
    rw [if_pos hs]
  · intro hs
    rw [base]
    unfold imageSizeCheck
    rw [if_neg hs]
  · intro hle
    rw [base]
    unfold imageSizeCheck
    rw [if_neg]
    intro hs
    exact absurd hs.1 (not_lt.mpr hle)
  · intro heq
    rw [base]
    unfold imageSizeCheck
    rw [if_neg]
    intro hs
    have h2 := hs.2
    rw [heq] at h2
    exact absurd h2 (lt_irrefl config.MaxSize)

/-- C5 witness: a file whose size equals the positive `MaxSize` passes the
size check and, with an empty config tail, `Image` returns the handle. -/
theorem C5_witness :
    (New.SetFile "f" ⟨"a.png", 100, true, true, "x"⟩).Image "f" ⟨100, [], []⟩ =
      imageExtCheck (New.SetFile "f" ⟨"a.png", 100, true, true, "x"⟩) "f"
        ⟨100, [], []⟩ ⟨"a.png", 100, true, true, "x"⟩ ∧
    ((New.SetFile "f" ⟨"a.png", 100, true, true, "x"⟩).Image "f" ⟨100, [], []⟩).1 =
      some ⟨"a.png", 100, true, true, "x"⟩ := by
  constructor
  · exact (C5_size_check _ "f" _ _ (by decide)).2.2.2 rfl
  · decide

/-- C8: `MinLength(min)` fails exactly when the Unicode code-point count of
the value is strictly below `min` (a count equal to `min` passes), and a
failure carries the message "This field must be at least {min} characters
long". -/
theorem C8_minlength (min : Int) (field value : String) :
    ((MinLength min field value).1 = false ↔
      (RuneCountInString value : Int) < min) ∧
    ((RuneCountInString value : Int) = min → (MinLength min field value).1 = true) ∧
    ((RuneCountInString value : Int) < min →
      MinLength min field value =
        (false, "This field must be at least " ++ toString min ++ " characters long")) := by
  unfold MinLength
  split_ifs with h
  · refine ⟨by simp [h], ?_, fun _ => rfl⟩
    intro he
    rw [he] at h
    exact absurd h (lt_irrefl min)
  · exact ⟨by simp [h], fun _ => rfl, fun hc => absurd hc h⟩

/-- C8 witness: the two-byte, one-code-point value "é" passes `MinLength 1`
and fails `MinLength 2`: the count is of code points, not bytes. -/
theorem C8_witness :
    RuneCountInString "é" = 1 ∧
    String.utf8ByteSize "é" = 2 ∧
    (MinLength 1 "f" "é").1 = true ∧
    (MinLength 2 "f" "é").1 = false := by
  refine ⟨by decide, by decide, ?_, ?_⟩
  · exact (C8_minlength 1 "f" "é").2.1 (by decide)
  · exact (C8_minlength 2 "f" "é").1.mpr (by decide)

/-- C10: for a field never set, `GetValue` returns `""` and `GetFile`
returns nil; consequently `String` and `Int` validate against the empty
string — `Int` with no validations records "This field must be a valid
integer" and returns 0 — and `Image` records "No file was uploaded". -/
theorem C10_absent_field (v : Validator) (field : String)
    (hv : lookupKV v.values field = none) (hf : lookupKV v.files field = none) :
    v.GetValue field = "" ∧
    v.GetFile field = none ∧
    (∀ vals, v.String field vals = ("", runValidations v field "" vals)) ∧
    (∀ vals, v.Int field vals =
      (0, (runValidations v field "" vals).setError field
        "This field must be a valid integer")) ∧
    (∀ config, v.Image field config = (none, v.setError field "No file was uploaded")) := by
  have hgv : v.GetValue field = "" := by
    unfold Validator.GetValue
    rw [hv]
    rfl
  refine ⟨hgv, hf, ?_, ?_, ?_⟩
  · intro vals
    unfold Validator.String
    rw [hgv]
  · intro vals
    unfold Validator.Int
    rw [hgv]
    rfl
  · intro config
    unfold Validator.Image Validator.GetFile
    rw [hf]

/-- C3: `Image` runs its checks in the fixed order missing-file lookup,
size, extension, MIME stage (open, read, sniffed-type comparison); the
first failing check records its message and returns no file, the
outcome not depending on the later checks, and when every check passes the
stored file handle is returned with the validator unchanged. -/
theorem C3_image_order (v : Validator) (field : String) (config : FileValidationConfig) :
    (v.GetFile field = none →
      v.Image field config = (none, v.setError field "No file was uploaded")) ∧
    (∀ file, v.GetFile field = some file →
      (sizeFails config file →
        v.Image field config = (none, v.setError field
          ("File size exceeds maximum limit of " ++ toString config.MaxSize ++ " bytes"))) ∧
      (¬sizeFails config file → extFails config file →
        v.Image field config = (none, v.setError field
          ("Invalid file extension. Allowed: " ++ joinComma config.AllowedExts))) ∧
      (¬sizeFails config file → ¬extFails config file → file.openOk = false →
        v.Image field config = (none, v.setError field "Could not process file")) ∧
      (¬sizeFails config file → ¬extFails config file → file.openOk = true →
        file.readOk = false →
        v.Image field config = (none, v.setError field "Could not read file content")) ∧
      (¬sizeFails config file → ¬extFails config file → file.openOk = true →
        file.readOk = true → sniffFails config file →
        v.Image field config = (none, v.setError field
          ("Invalid file type. Allowed: " ++ joinComma config.AllowedTypes))) ∧
      (¬sizeFails config file → ¬extFails config file → file.openOk = true →
        file.readOk = true → ¬sniffFails config file →
        v.Image field config = (some file, v))) := by
  constructor
  · intro h
    unfold Validator.Image
    rw [h]
  · intro file h
    have base : v.Image field config = imageSizeCheck v field config file := by
      unfold Validator.Image
      rw [h]
    refine ⟨?_, ?_, ?_, ?_, ?_, ?_⟩
    · intro hs
      rw [base]
      unfold imageSizeCheck
      rw [if_pos hs]
    · intro hs he
      rw [base]
      unfold imageSizeCheck imageExtCheck
      rw [if_neg hs, if_pos he]
    · intro hs he ho
      rw [base]
      unfold imageSizeCheck imageExtCheck imageMimeCheck
      rw [if_neg hs, if_neg he, if_pos ho]
    · intro hs he ho hr
      rw [base]
      unfold imageSizeCheck imageExtCheck imageMimeCheck
      rw [if_neg hs, if_neg he, if_neg (by simp [ho]), if_pos hr]
    · intro hs he ho hr ht
      rw [base]
      unfold imageSizeCheck imageExtCheck imageMimeCheck
      rw [if_neg hs, if_neg he, if_neg (by simp [ho]), if_neg (by simp [hr]), if_pos ht]
    · intro hs he ho hr ht
      rw [base]
      unfold imageSizeCheck imageExtCheck imageMimeCheck
      rw [if_neg hs, if_neg he, if_neg (by simp [ho]), if_neg (by simp [hr]), if_neg ht]

/-- C3 witness: with the default image config, a small "test.jpg" sniffed
as image/jpeg passes every check and the handle comes back with the
validator unchanged. -/
theorem C3_witness :
    (New.SetFile "avatar" ⟨"test.jpg", 27, true, true, "image/jpeg"⟩).Image "avatar"
        (ImageConfig MB []) =
      (some ⟨"test.jpg", 27, true, true, "image/jpeg"⟩,
        New.SetFile "avatar" ⟨"test.jpg", 27, true, true, "image/jpeg"⟩) := by
  exact ((C3_image_order (New.SetFile "avatar" ⟨"test.jpg", 27, true, true, "image/jpeg"⟩)
      "avatar" (ImageConfig MB [])).2 ⟨"test.jpg", 27, true, true, "image/jpeg"⟩
      (by decide)).2.2.2.2.2 (by decide) (by decide) rfl rfl (by decide)

/-- C6: `ImageConfig` with no formats falls back to the default format
list; each format name contributes, case-insensitively, its fixed MIME
type and extensions (jpg/jpeg → image/jpeg with .jpg/.jpeg, png →
image/png with .png, gif → image/gif with .gif, webp → image/webp with
.webp), and an unrecognized name contributes nothing. -/
theorem C6_imageconfig (maxSize : Int) (formats : List String) :
    (formats = [] → ImageConfig maxSize formats = ImageConfig maxSize DefaultImageFormats) ∧
    (ImageConfig maxSize formats).MaxSize = maxSize ∧
    (formats ≠ [] →
      (ImageConfig maxSize formats).AllowedTypes = formats.flatMap formatMimes ∧
      (ImageConfig maxSize formats).AllowedExts = formats.flatMap formatExtsOf) := by
  refine ⟨?_, rfl, ?_⟩
  · intro h
    subst h
    rfl
  · intro h
    have hne : formats.isEmpty = false := by
      cases formats with
      | nil => exact absurd rfl h
      | cons a l => rfl
    constructor <;> simp [ImageConfig, hne, imageConfigLoop_eq]

/-- C6 witness: an unrecognized name is dropped, recognized names expand
case-insensitively, and no formats means the default set. -/
theorem C6_witness :
    ImageConfig MB ["PNG", "bogus", "jpg"] =
      ⟨MB, ["image/png", "image/jpeg"], [".png", ".jpg", ".jpeg"]⟩ ∧
    (ImageConfig MB ["PNG", "bogus", "jpg"]).AllowedTypes =
      (["PNG", "bogus", "jpg"].flatMap formatMimes) ∧
    ImageConfig MB [] = ImageConfig MB DefaultImageFormats := by
  refine ⟨by decide, ((C6_imageconfig MB ["PNG", "bogus", "jpg"]).2.2 (by decide)).1,
    (C6_imageconfig MB []).1 rfl⟩

/-- C9: no public operation removes or clears an entry of the error sink:
every field with a recorded error still has one after `SetValue`,
`SetFile`, `String`, `Int`, `Image` or `Check`, and once `Valid()` is
false it stays false after every such call. -/
theorem C9_errors_monotone (v : Validator) :
    (∀ f, (lookupKV v.Errors f).isSome = true →
      (∀ field value, (lookupKV (v.SetValue field value).Errors f).isSome = true) ∧
      (∀ field file, (lookupKV (v.SetFile field file).Errors f).isSome = true) ∧
      (∀ field vals, (lookupKV ((v.String field vals).2).Errors f).isSome = true) ∧
      (∀ field vals, (lookupKV ((v.Int field vals).2).Errors f).isSome = true) ∧
      (∀ field config, (lookupKV ((v.Image field config).2).Errors f).isSome = true) ∧
      (∀ ok field message, (lookupKV (v.Check ok field message).Errors f).isSome = true)) ∧
    (v.Valid = false →
      (∀ field value, (v.SetValue field value).Valid = false) ∧
      (∀ field file, (v.SetFile field file).Valid = false) ∧
      (∀ field vals, ((v.String field vals).2).Valid = false) ∧
      (∀ field vals, ((v.Int field vals).2).Valid = false) ∧
      (∀ field config, ((v.Image field config).2).Valid = false) ∧
      (∀ ok field message, (v.Check ok field message).Valid = false)) := by
  constructor
  · intro f hf
    refine ⟨fun _ _ => hf, fun _ _ => hf, ?_, ?_, ?_, ?_⟩
    · exact fun field vals => String_keeps v field vals f hf
    · exact fun field vals => Int_keeps v field vals f hf
    · exact fun field config => Image_keeps v field config f hf
    · exact fun ok field message => Check_keeps v ok field message f hf
  · intro hvalid
    have hne : v.Errors ≠ [] := by
      intro h0
      unfold Validator.Valid at hvalid
      rw [h0] at hvalid
      simp at hvalid
    have toValid : ∀ w : Validator, w.Errors ≠ [] → w.Valid = false := by
      intro w hw
      unfold Validator.Valid
      cases hE : w.Errors with
      | nil => exact absurd hE hw
      | cons a l => rfl
    refine ⟨fun _ _ => toValid _ hne, fun _ _ => toValid _ hne, ?_, ?_, ?_, ?_⟩
    · exact fun field vals =>
        toValid _ (keepsErrors_ne_nil (String_keeps v field vals) hne)
    · exact fun field vals =>
        toValid _ (keepsErrors_ne_nil (Int_keeps v field vals) hne)
    · exact fun field config =>
        toValid _ (keepsErrors_ne_nil (Image_keeps v field config) hne)
    · exact fun ok field message =>
        toValid _ (keepsErrors_ne_nil (Check_keeps v ok field message) hne)

/-- C9 witness: after `Check false` records an error, the field keeps an
error and `Valid` stays false across further operations. -/
theorem C9_witness :
    (lookupKV ((New.Check false "a" "boom").SetValue "x" "y").Errors "a").isSome = true ∧
    (((New.Check false "a" "boom").Int "x" []).2).Valid = false := by
  have h := C9_errors_monotone (New.Check false "a" "boom")
  exact ⟨(h.1 "a" (by decide)).1 "x" "y", (h.2 (by decide)).2.2.2.1 "x" []⟩

/-- C1 counterexample: a config with an empty allowed-MIME-types set and a
file whose open fails: `Image` still opens the file and records the I/O
message "Could not process file", contradicting the claim that the file is
opened only when `AllowedTypes` is non-empty. -/
theorem C1_counterexample :
    (FileValidationConfig.mk 0 [] []).AllowedTypes = [] ∧
    ((New.SetFile "f" ⟨"a.png", 10, false, true, "x"⟩).Image "f"
        (FileValidationConfig.mk 0 [] [])).2.Errors =
      [("f", "Could not process file")] := by decide

/-- C1 (amended): once the lookup, size and extension checks pass, `Image`
always opens and reads the file, whatever `AllowedTypes` is; the I/O error
messages "Could not process file" and "Could not read file content" can
therefore be recorded even with an empty `AllowedTypes`, which only
disables the sniffed-type comparison itself. -/
theorem C1_amended_io_unguarded (v : Validator) (field : String)
    (config : FileValidationConfig) (file : FileHeader)
    (hfile : v.GetFile field = some file)
    (hsize : ¬sizeFails config file)
    (hext : ¬extFails config file) :
    (file.openOk = false →
      v.Image field config = (none, v.setError field "Could not process file")) ∧
    (file.openOk = true → file.readOk = false →
      v.Image field config = (none, v.setError field "Could not read file content")) ∧
    (config.AllowedTypes = [] → file.openOk = true → file.readOk = true →
      v.Image field config = (some file, v)) := by
  have base : v.Image field config = imageSizeCheck v field config file := by
    unfold Validator.Image
    rw [hfile]
  refine ⟨?_, ?_, ?_⟩
  · intro ho
    rw [base]
    unfold imageSizeCheck imageExtCheck imageMimeCheck
    rw [if_neg hsize, if_neg hext, if_pos ho]
  · intro ho hr
    rw [base]
    unfold imageSizeCheck imageExtCheck imageMimeCheck
    rw [if_neg hsize, if_neg hext, if_neg (by simp [ho]), if_pos hr]
  · intro hAT ho hr
    rw [base]
    unfold imageSizeCheck imageExtCheck imageMimeCheck
    rw [if_neg hsize, if_neg hext, if_neg (by simp [ho]), if_neg (by simp [hr]),
      if_neg fun hs => hs.1 hAT]

/-- C1 witness: the amended statement at the counterexample's input. -/
theorem C1_amended_witness :
    (New.SetFile "f" ⟨"a.png", 10, false, true, "x"⟩).Image "f" ⟨0, [], []⟩ =
      (none, (New.SetFile "f" ⟨"a.png", 10, false, true, "x"⟩).setError "f"
        "Could not process file") := by
  exact (C1_amended_io_unguarded (New.SetFile "f" ⟨"a.png", 10, false, true, "x"⟩)
    "f" ⟨0, [], []⟩ ⟨"a.png", 10, false, true, "x"⟩ (by decide) (by decide) (by decide)).1 rfl

theorem toNat_ofNat_of_lt (n : Nat) (h : n < 0xd800) : (Char.ofNat n).toNat = n := by
  unfold Char.ofNat
  rw [dif_pos (Or.inl h)]
  rfl

/-- The ASCII lowering never produces the uppercase letters the Go
`ParseBool` tokens contain. -/
theorem toLower_ne_upper (c : Char) : c.toLower ≠ 'T' ∧ c.toLower ≠ 'F' := by
  unfold Char.toLower
  by_cases h : c.toNat ≥ 65 ∧ c.toNat ≤ 90
  · rw [if_pos h]
    constructor <;> intro heq <;> (
      have h2 := congrArg Char.toNat heq
      rw [toNat_ofNat_of_lt (c.toNat + 32) (by omega)] at h2
      have h3 : Char.toNat 'T' = 84 := by decide
      have h4 : Char.toNat 'F' = 70 := by decide
      omega)
  · rw [if_neg h]
    constructor <;> intro heq <;> subst heq <;> exact h (by decide)

theorem mem_of_mem_dropWhile {α : Type} (p : α → Bool) (l : List α) (a : α)
    (h : a ∈ l.dropWhile p) : a ∈ l := by
  induction l with
  | nil => simp at h
  | cons x xs ih =>
    by_cases hp : p x = true
    · rw [List.dropWhile_cons_of_pos hp] at h
      exact List.mem_cons_of_mem x (ih h)
    · rw [List.dropWhile_cons_of_neg hp] at h
      exact h

/-- Every character of a trimmed, lower-cased string is the image of the
ASCII lowering. -/
theorem mem_trim_lower_is_lowered (s : String) (c : Char)
    (hc : c ∈ (goTrimSpace (goToLower s)).data) : ∃ d, Char.toLower d = c := by
  have hc1 : c ∈ (((goToLower s).data.dropWhile goIsSpace).reverse.dropWhile goIsSpace).reverse :=
    hc
  rw [List.mem_reverse] at hc1
  have hc2 := mem_of_mem_dropWhile goIsSpace _ c hc1
  rw [List.mem_reverse] at hc2
  have hc3 := mem_of_mem_dropWhile goIsSpace _ c hc2
  have hc4 : c ∈ (goToLower s).data := hc3
  have hc5 : c ∈ s.data.map Char.toLower := hc4
  rw [List.mem_map] at hc5
  obtain ⟨d, _, hd⟩ := hc5
  exact ⟨d, hd⟩

/-- After trimming and lower-casing, `strconv.ParseBool` accepts exactly
the six lower-case tokens: the six upper-case spellings it also knows are
unreachable. -/
theorem parseBool_trimLower_isSome (value : String) :
    (parseBool (goTrimSpace (goToLower value))).isSome = true ↔
      goTrimSpace (goToLower value) ∈ ["1", "t", "true", "0", "f", "false"] := by
  constructor
  · intro hp
    unfold parseBool at hp
    split_ifs at hp with h1 h2
    · simp only [List.mem_cons, List.not_mem_nil, or_false] at h1
      rcases h1 with h | h | h | h | h | h
      · rw [h]; decide
      · rw [h]; decide
      · exact absurd (mem_trim_lower_is_lowered value 'T' (by rw [h]; decide)).choose_spec
          (toLower_ne_upper _).1
      · exact absurd (mem_trim_lower_is_lowered value 'T' (by rw [h]; decide)).choose_spec
          (toLower_ne_upper _).1
      · rw [h]; decide
      · exact absurd (mem_trim_lower_is_lowered value 'T' (by rw [h]; decide)).choose_spec
          (toLower_ne_upper _).1
    · simp only [List.mem_cons, List.not_mem_nil, or_false] at h2
      rcases h2 with h | h | h | h | h | h
      · rw [h]; decide
      · rw [h]; decide
      · exact absurd (mem_trim_lower_is_lowered value 'F' (by rw [h]; decide)).choose_spec
          (toLower_ne_upper _).2
      · exact absurd (mem_trim_lower_is_lowered value 'F' (by rw [h]; decide)).choose_spec
          (toLower_ne_upper _).2
      · rw [h]; decide
      · exact absurd (mem_trim_lower_is_lowered value 'F' (by rw [h]; decide)).choose_spec
          (toLower_ne_upper _).2
    · simp at hp
  · intro h
    simp only [List.mem_cons, List.not_mem_nil, or_false] at h
    rcases h with h | h | h | h | h | h <;> rw [h] <;> decide

/-- C7 counterexample: the trimmed, lower-cased value "yes" is left as the
token "yes", yet `Boolean` fails on it — the accepted set has no yes/no
equivalents, contradicting the claim's description of the token set. -/
theorem C7_counterexample :
    goTrimSpace (goToLower "yes") = "yes" ∧
    Boolean "flag" "yes" = (false, "This field must be true or false") := by decide

/-- C7 (amended): `Boolean` lower-cases and trims its value and succeeds
exactly when the result is one of the six tokens 1/t/true/0/f/false that
`strconv.ParseBool` can still accept after lower-casing; yes/no are
rejected, and every failure carries "This field must be true or false". -/
theorem C7_amended_tokens (field value : String) :
    ((Boolean field value).1 = true ↔
      goTrimSpace (goToLower value) ∈ ["1", "t", "true", "0", "f", "false"]) ∧
    (goTrimSpace (goToLower value) ∉ ["1", "t", "true", "0", "f", "false"] →
      Boolean field value = (false, "This field must be true or false")) := by
  have key := parseBool_trimLower_isSome value
  constructor
  · constructor
    · intro hb
      apply key.mp
      cases hp : parseBool (goTrimSpace (goToLower value)) with
      | none =>
        exfalso
        unfold Boolean at hb
        rw [hp] at hb
        simp at hb
      | some b => rfl
    · intro h
      have hs := key.mpr h
      rw [Option.isSome_iff_exists] at hs
      obtain ⟨b, hb⟩ := hs
      unfold Boolean
      rw [hb]
  · intro h
    unfold Boolean
    cases hp : parseBool (goTrimSpace (goToLower value)) with
    | none => rfl
    | some b =>
      exact absurd (key.mp (by rw [hp]; rfl)) h

/-- C7 witness: a padded upper-case "TRUE" normalizes to the accepted
token "true". -/
theorem C7_witness : (Boolean "flag" "  TRUE ").1 = true :=
  (C7_amended_tokens "flag" "  TRUE ").1.mpr (by decide)

/-- C10 witness: the fresh validator at the never-set field "missing". -/
theorem C10_witness :
    New.GetValue "missing" = "" ∧
    New.GetFile "missing" = none ∧
    New.Int "missing" [] = (0, New.setError "missing" "This field must be a valid integer") ∧
    New.Image "missing" ⟨0, [], []⟩ = (none, New.setError "missing" "No file was uploaded") := by
  have h := C10_absent_field New "missing" rfl rfl
  exact ⟨h.1, h.2.1, h.2.2.2.1 [], h.2.2.2.2 ⟨0, [], []⟩⟩

end FormValidator
